import Mathlib

/-! Package fileswap: encrypted temporary files served once through a download token.

A shallow embedding of `util/rest/fileswap/server.go`.

The Go code is stateful: it talks to the operating system (temp files,
descriptors, unlink), to the stream cipher `sio`, to the token authority
`download.Server` and to a gin request context.  The embedding passes the
state explicitly:

* `World` is the part of the operating system the package touches: the name
  space of the file system, file contents by inode, the table of open
  descriptors;
* `Context` is the gin context of one request: query parameters, response
  header, response body, recorded errors;
* `Cipher` and `Server` are the interfaces of the two collaborators whose code
  is not in this package; every theorem quantifies over them.

Go functions returning `(value, error)` whose pairing is itself a subject of
verification (`NewFileWriter`, `GetDownloadToken`) return a Go style pair here.
-/

namespace fileswap

/-! ## Values -/

/-- One byte of file or response content. -/
abbrev Byte := Fin 256

/-- A Go string whose bytes matter: a sequence of bytes, not necessarily valid
UTF-8. The display name of a download is one: the caller supplies it and it
travels, through the token, into a response header. Names that the package
only compares or passes on (paths, tokens, keys, messages) are Lean strings. -/
abbrev GoString := List Byte

/-- The bytes of an ASCII literal: one byte per character, its code. -/
def ascii (s : String) : GoString :=
  s.data.map (fun ch => ⟨ch.toNat % 256, Nat.mod_lt _ (by decide)⟩)

/-- A file-system path. -/
abbrev Path := String

/-- The stream-cipher key, `[]byte` in Go. -/
abbrev Key := List Byte

/-- Reasons for which the operating system refuses an operation on an entry
that exists. -/
inductive Errno where
  | EACCES
  | EIO
  | EMFILE
  | EISDIR
  | ENOTEMPTY
  | EROFS
  | EBUSY
deriving DecidableEq, Repr

/-- A Go `error` value, as far as the package can tell errors apart. -/
inductive Error where
  /-- ENOENT: the only error for which `os.IsNotExist` answers true. -/
  | notExist
  /-- EEXIST, from an exclusive create. -/
  | exist
  /-- Another failed system call, wrapped in `*os.PathError`. -/
  | sys (e : Errno)
  /-- The value `os.ErrClosed`: use of a closed descriptor. -/
  | closed
  /-- An error value of an external library (jwt, sio), identified by a code. -/
  | ext (code : Nat)
deriving DecidableEq, Repr

/-- Point update of a function. -/
def upd {α β : Type} [DecidableEq α] (f : α → β) (a : α) (b : β) : α → β :=
  fun x => if x = a then b else f x

/-! ## The operating system -/

/-- A directory entry: the inode it names and what the operating system
answers when this process opens or unlinks it (`none`: the call succeeds).
`removeErr` stands for everything that makes `unlink` fail on an existing
entry: a parent directory without write permission, a sticky directory and a
foreign owner, a non-empty directory, a read-only file system. -/
structure Dirent where
  ino : Nat
  openErr : Option Errno
  removeErr : Option Errno
deriving DecidableEq, Repr

/-- The state of the operating system seen by the package. -/
structure World where
  /-- Name space: path to directory entry. -/
  dir : Path → Option Dirent
  /-- Contents, by inode number. -/
  data : Nat → List Byte
  /-- Open descriptors: descriptor to inode. -/
  fds : Nat → Option Nat
  /-- Next descriptor handed out. -/
  nextFd : Nat
  /-- Next inode number handed out. -/
  nextIno : Nat

/-- The Go value `*os.File`: a descriptor and the name it was opened under. -/
structure File where
  fd : Nat
  name : Path
deriving DecidableEq, Repr

namespace File

/-- Method `(*os.File).Name`. -/
def Name (f : File) : Path := f.name

/-- Method `(*os.File).Close`: releases the descriptor; a second close
reports `os.ErrClosed`. -/
def Close (w : World) (f : File) : World × Option Error :=
  match w.fds f.fd with
  | none => (w, some Error.closed)
  | some _ => ({ w with fds := upd w.fds f.fd none }, none)

/-- Method `(*os.File).Write` on a descriptor opened by `ioutil.TempFile`:
appends to the inode. Running out of disk space is not modelled. -/
def Write (w : World) (f : File) (b : List Byte) : World × Option Error :=
  match w.fds f.fd with
  | none => (w, some Error.closed)
  | some i => ({ w with data := upd w.data i (w.data i ++ b) }, none)

/-- Everything a reader of the descriptor gets, from offset 0 to end of file. -/
def contents (w : World) (f : File) : List Byte :=
  match w.fds f.fd with
  | none => []
  | some i => w.data i

end File

namespace os

/-- Function `os.IsNotExist`. -/
def IsNotExist : Error → Bool
  | Error.notExist => true
  | _ => false

/-- Function `os.Open`: opens the named file for reading. -/
def Open (w : World) (name : Path) : World × Except Error File :=
  match w.dir name with
  | none => (w, Except.error Error.notExist)
  | some d =>
    match d.openErr with
    | some e => (w, Except.error (Error.sys e))
    | none =>
      ({ w with fds := upd w.fds w.nextFd (some d.ino), nextFd := w.nextFd + 1 },
        Except.ok { fd := w.nextFd, name := name })

/-- Function `os.Remove`: unlinks the name. On failure nothing changes. Open
descriptors of the inode stay usable, as on Unix. -/
def Remove (w : World) (name : Path) : World × Option Error :=
  match w.dir name with
  | none => (w, some Error.notExist)
  | some d =>
    match d.removeErr with
    | some e => (w, some (Error.sys e))
    | none => ({ w with dir := upd w.dir name none }, none)

end os

/-- What the environment decides for one run: the name the temp-file
allocator of the standard library settles on, or its failure. -/
structure Env where
  /-- Outcome of the name search of `ioutil.TempFile` for a pattern. -/
  tempName : String → Except Error Path

namespace ioutil

/-- Function `ioutil.TempFile(dir, pattern)`: creates a new file with
`O_RDWR|O_CREATE|O_EXCL` and mode 0600 and opens it. The exclusive create
refuses a name that exists. The new entry belongs to this process and was
just created in a directory it can write to, so it can be opened and
unlinked. -/
def TempFile (env : Env) (w : World) (_dir : String) (pattern : String) :
    World × Except Error File :=
  match env.tempName pattern with
  | Except.error e => (w, Except.error e)
  | Except.ok name =>
    match w.dir name with
    | some _ => (w, Except.error Error.exist)
    | none =>
      ({ dir := upd w.dir name (some { ino := w.nextIno, openErr := none, removeErr := none }),
         data := upd w.data w.nextIno [],
         fds := upd w.fds w.nextFd (some w.nextIno),
         nextFd := w.nextFd + 1,
         nextIno := w.nextIno + 1 },
        Except.ok { fd := w.nextFd, name := name })

end ioutil

/-! ## The stream cipher `github.com/minio/sio` -/

/-- The interface of the stream cipher. The library is external; its
functions are parameters. The ciphertext depends on the key and on the
plaintext written so far (and on a nonce the instance fixes). -/
structure Cipher where
  /-- Validation of the configuration by `sio.EncryptWriter`. -/
  configErr : Key → Option Error
  /-- Ciphertext that one `Write` pushes to the destination, given the
  plaintext written before it and the new chunk. -/
  emit : Key → List Byte → List Byte → List Byte
  /-- Ciphertext that `Close` pushes to the destination (the last package),
  given the whole plaintext. -/
  final : Key → List Byte → List Byte
  /-- What `sio.Decrypt(dst, src, cfg)` does on the source bytes: the
  plaintext it writes to `dst` and the error it returns. -/
  Decrypt : Key → List Byte → List Byte × Option Error

/-- The writer returned by `sio.EncryptWriter`: destination, key, plaintext
consumed so far, and whether `Close` already flushed the last package. -/
structure EncWriter where
  dst : File
  key : Key
  plain : List Byte
  finalized : Bool
deriving DecidableEq, Repr

namespace sio

/-- Function `sio.EncryptWriter(dst, sio.Config{Key: key})`. -/
def EncryptWriter (ci : Cipher) (dst : File) (key : Key) : Except Error EncWriter :=
  match ci.configErr key with
  | some e => Except.error e
  | none => Except.ok { dst := dst, key := key, plain := [], finalized := false }

end sio

namespace EncWriter

/-- Method `Write` of the encrypting writer: the ciphertext of the chunk goes
to the destination. Only writes before `Close` are modelled faithfully; a
write after `Close` is reported as an error and changes nothing. -/
def Write (ci : Cipher) (w : World) (ew : EncWriter) (p : List Byte) :
    World × EncWriter × Option Error :=
  if ew.finalized then (w, ew, some Error.closed)
  else
    match ew.dst.Write w (ci.emit ew.key ew.plain p) with
    | (w1, some e) => (w1, ew, some e)
    | (w1, none) => (w1, { ew with plain := ew.plain ++ p }, none)

/-- Method `Close` of the encrypting writer: flushes the last package once,
then closes the destination when it is an `io.Closer` (a file is). -/
def Close (ci : Cipher) (w : World) (ew : EncWriter) : World × EncWriter × Option Error :=
  if ew.finalized then
    let r := ew.dst.Close w
    (r.1, ew, r.2)
  else
    match ew.dst.Write w (ci.final ew.key ew.plain) with
    | (w1, some e) => (w1, ew, some e)
    | (w1, none) =>
      let r := ew.dst.Close w1
      (r.1, { ew with finalized := true }, r.2)

end EncWriter

/-! ## Time -/

/-- Nanoseconds in a second. -/
def nsPerSecond : Int := 1000000000

/-- `time.Time.Unix` of an instant given in nanoseconds since the epoch: whole
seconds, rounded down. -/
def Unix (t : Int) : Int := t / nsPerSecond

/-! ## The token authority `util/rest/download` -/

/-- The Go struct `jwt.StandardClaims`. -/
structure StandardClaims where
  Audience : String
  ExpiresAt : Int
  Id : String
  IssuedAt : Int
  Issuer : String
  NotBefore : Int
  Subject : String
deriving DecidableEq, Repr

/-- The Go struct `downloadTokenClaims`; it embeds `jwt.StandardClaims`. -/
structure downloadTokenClaims extends StandardClaims where
  TempFileName : String
  DownloadFileName : GoString
deriving DecidableEq, Repr

/-- The token authority `download.Server`. Its code is not part of this
package: its three methods are parameters. `HandleDownloadToken` reads the
clock to check the expiry, so it takes the current time. -/
structure Server where
  Secret : Key
  GetDownloadToken : downloadTokenClaims → String × Option Error
  HandleDownloadToken : String → Int → Except Error downloadTokenClaims

/-! ## The request context -/

/-- An error as handed to gin's `c.Error`. -/
inductive RecordedError where
  /-- The value `rest.ErrBadRequest.Wrap(cause, message)`. -/
  | badRequest (cause : Error) (message : String)
  /-- The error as the callee returned it, `c.Error(err)`. -/
  | plain (err : Error)
deriving DecidableEq, Repr

/-- The error is of type `rest.ErrBadRequest`: the spec's InvalidRequest. -/
def RecordedError.IsInvalidRequest : RecordedError → Bool
  | RecordedError.badRequest _ _ => true
  | RecordedError.plain _ => false

/-- Modelled from the spec: the error middleware of package `rest` is not
among the sources. The spec maps errors to a bad-request status for invalid
tokens `and an "internal error" status otherwise`: an error recorded without
the `rest.ErrBadRequest` type is the spec's InternalError. -/
def RecordedError.IsInternalError (e : RecordedError) : Bool :=
  !e.IsInvalidRequest

/-- Function `validHeaderFieldByte` of `net/textproto`: the characters of an
HTTP token, that is letters, digits and ``!#$%&'*+-.^_`|~``. -/
def validHeaderFieldByte (c : Char) : Bool :=
  c.isAlphanum ||
    [33, 35, 36, 37, 38, 39, 42, 43, 45, 46, 94, 95, 96, 124, 126].contains c.toNat

/-- The loop of `canonicalMIMEHeaderKey`: upper case for the first letter and
for a letter after a dash, lower case for the others. -/
def canonicalize : Bool → List Char → List Char
  | _, [] => []
  | upper, c :: cs =>
    let c1 := if upper then c.toUpper else c.toLower
    c1 :: canonicalize (c1 == '-') cs

/-- Function `textproto.CanonicalMIMEHeaderKey`: a key made of token
characters is put in canonical case, any other key is returned unchanged. -/
def CanonicalMIMEHeaderKey (s : String) : String :=
  if s.data.all validHeaderFieldByte then String.mk (canonicalize true s.data) else s

/-- The part of `*gin.Context` the handler uses. -/
structure Context where
  /-- Query parameters of the request; an absent key reads as the empty string. -/
  query : String → String
  /-- Response header, `c.Writer.Header()`, by canonical key. -/
  header : String → Option GoString
  /-- Bytes written to `c.Writer`. -/
  body : List Byte
  /-- Errors recorded with `c.Error`, oldest first. -/
  Errors : List RecordedError

namespace Context

/-- Method `c.Query`. -/
def Query (c : Context) (key : String) : String := c.query key

/-- Method `c.Error`: appends to the errors of the request. -/
def Error (c : Context) (e : RecordedError) : Context :=
  { c with Errors := c.Errors ++ [e] }

/-- The call `c.Writer.Header().Set(key, value)`: the value replaces what the
header holds under the canonical form of the key. -/
def HeaderSet (c : Context) (key : String) (value : GoString) : Context :=
  { c with header := upd c.header (CanonicalMIMEHeaderKey key) (some value) }

/-- Bytes written to `c.Writer`. -/
def Write (c : Context) (b : List Byte) : Context :=
  { c with body := c.body ++ b }

end Context

/-! ## Package fileswap -/

/-- The Go struct `Handler`. -/
structure Handler where
  downloadServer : Server

/-- The Go struct `FileWriter`: the embedded `io.WriteCloser` is the encrypting
writer. -/
structure FileWriter where
  WriteCloser : EncWriter
  downloadServer : Server
  filePath : String

/-- Method `Handler.NewFileWriter`. Returns the Go pair `(*FileWriter, error)`. -/
def Handler.NewFileWriter (env : Env) (ci : Cipher) (s : Handler) (w : World)
    (tempFilePattern : String) : World × Option FileWriter × Option Error :=
  match ioutil.TempFile env w "" tempFilePattern with
  | (w1, Except.error err) => (w1, none, some err)
  | (w1, Except.ok file) =>
    match sio.EncryptWriter ci file s.downloadServer.Secret with
    | Except.error err =>
      let w2 := (file.Close w1).1
      let w3 := (os.Remove w2 file.Name).1
      (w3, none, some err)
    | Except.ok wr =>
      (w1, some { WriteCloser := wr, downloadServer := s.downloadServer, filePath := file.Name },
        none)

/-- The format `attachment; filename="%s"` applied to a string: the verb
`%s` copies the bytes of the string. -/
def contentDisposition (downloadFileName : GoString) : GoString :=
  ascii "attachment; filename=\"" ++ downloadFileName ++ ascii "\""

/-- Method `Handler.HandleDownloadRequest`. The deferred close and remove run
last on the path that registered them. -/
def Handler.HandleDownloadRequest (ci : Cipher) (s : Handler) (now : Int) (w : World)
    (c : Context) : World × Context :=
  match s.downloadServer.HandleDownloadToken (c.Query "token") now with
  | Except.error err =>
    (w, c.Error (RecordedError.badRequest err "Invalid download request"))
  | Except.ok claims =>
    match os.Open w claims.TempFileName with
    | (w1, Except.error err) =>
      if os.IsNotExist err then
        (w1, c.Error (RecordedError.badRequest err "Download file not found. Please retry."))
      else
        (w1, c.Error (RecordedError.plain err))
    | (w1, Except.ok file) =>
      let c1 := c.HeaderSet "Content-type" (ascii "application/octet-stream")
      let c2 := c1.HeaderSet "Content-Disposition" (contentDisposition claims.DownloadFileName)
      let r := ci.Decrypt s.downloadServer.Secret (file.contents w1)
      let c3 := c2.Write r.1
      let c4 := match r.2 with
        | some err => c3.Error (RecordedError.plain err)
        | none => c3
      let w2 := (file.Close w1).1
      let w3 := (os.Remove w2 claims.TempFileName).1
      (w3, c4)

namespace FileWriter

/-- Method `Write`, promoted from the embedded writer. -/
def Write (ci : Cipher) (w : World) (fw : FileWriter) (p : List Byte) :
    World × FileWriter × Option Error :=
  let r := fw.WriteCloser.Write ci w p
  (r.1, { fw with WriteCloser := r.2.1 }, r.2.2)

/-- Method `Close`, promoted from the embedded writer. -/
def Close (ci : Cipher) (w : World) (fw : FileWriter) : World × FileWriter × Option Error :=
  let r := fw.WriteCloser.Close ci w
  (r.1, { fw with WriteCloser := r.2.1 }, r.2.2)

/-- Method `FileWriter.Remove`. -/
def Remove (ci : Cipher) (w : World) (fw : FileWriter) : World × FileWriter :=
  let r := fw.Close ci w
  let w2 := (os.Remove r.1 fw.filePath).1
  (w2, r.2.1)

/-- The claims `GetDownloadToken` builds; `now` is what `time.Now()` returns
and `expireIn` a `time.Duration`, both in nanoseconds. -/
def claimsFor (fw : FileWriter) (downloadFileName : GoString) (expireIn now : Int) :
    downloadTokenClaims :=
  { TempFileName := fw.filePath,
    DownloadFileName := downloadFileName,
    toStandardClaims :=
      { Audience := "", ExpiresAt := Unix (now + expireIn), Id := "", IssuedAt := 0,
        Issuer := "", NotBefore := 0, Subject := "" } }

/-- Method `FileWriter.GetDownloadToken`. Returns the Go pair `(string, error)`. -/
def GetDownloadToken (fw : FileWriter) (downloadFileName : GoString) (expireIn now : Int) :
    String × Option Error :=
  fw.downloadServer.GetDownloadToken (claimsFor fw downloadFileName expireIn now)

/-- A producer writing the chunks in order, stopping at the first error. -/
def writeAll (ci : Cipher) (w : World) (fw : FileWriter) :
    List (List Byte) → World × FileWriter × Option Error
  | [] => (w, fw, none)
  | p :: ps =>
    match fw.Write ci w p with
    | (w1, fw1, some e) => (w1, fw1, some e)
    | (w1, fw1, none) => writeAll ci w1 fw1 ps

end FileWriter

/-- The ciphertext the encrypting writer has pushed to its destination once
the chunks were written in order and the writer closed; `acc` is the plaintext
written before them. -/
def cipherText (ci : Cipher) (key : Key) : List Byte → List (List Byte) → List Byte
  | acc, [] => ci.final key acc
  | acc, p :: ps => ci.emit key acc p ++ cipherText ci key (acc ++ p) ps

/-- The world right after `ioutil.TempFile` created `name`. -/
def created (w : World) (name : Path) : World :=
  { dir := upd w.dir name (some { ino := w.nextIno, openErr := none, removeErr := none }),
    data := upd w.data w.nextIno [],
    fds := upd w.fds w.nextFd (some w.nextIno),
    nextFd := w.nextFd + 1,
    nextIno := w.nextIno + 1 }

/-- The ciphertext the writes of the chunks push to the destination, before
`Close`; `acc` is the plaintext written before them. -/
def emitted (ci : Cipher) (key : Key) : List Byte → List (List Byte) → List Byte
  | _, [] => []
  | acc, p :: ps => ci.emit key acc p ++ emitted ci key (acc ++ p) ps

/-- A producer that writes the chunks in order and then either closes the
stream or leaves it open. -/
def FileWriter.produce (ci : Cipher) (w : World) (fw : FileWriter) (chunks : List (List Byte))
    (close : Bool) : World × FileWriter :=
  let r := fw.writeAll ci w chunks
  if close then ((r.2.1.Close ci r.1).1, (r.2.1.Close ci r.1).2.1) else (r.1, r.2.1)

/-! ## Concrete instances

A small cipher, authority, environment and a few worlds, used to evaluate the
definitions. -/

/-- A toy cipher: every byte is shifted by one, nothing is buffered. -/
def shiftCipher : Cipher where
  configErr := fun _ => none
  emit := fun _ _ p => p.map (fun b => b + 1)
  final := fun _ _ => []
  Decrypt := fun _ b => (b.map (fun x => x - 1), none)

/-- A cipher that refuses every configuration. -/
def refusingCipher : Cipher where
  configErr := fun _ => some (Error.ext 7)
  emit := fun _ _ p => p
  final := fun _ _ => []
  Decrypt := fun _ b => (b, none)

/-- A cipher whose `Decrypt` finds the stream tampered after one byte. -/
def tamperedCipher : Cipher where
  configErr := fun _ => none
  emit := fun _ _ p => p
  final := fun _ _ => []
  Decrypt := fun _ b => (b.take 1, some (Error.ext 3))

/-- The claims of the running example: they expire at second 300. -/
def exportClaims : downloadTokenClaims :=
  { TempFileName := "/tmp/export1",
    DownloadFileName := ascii "export.csv",
    toStandardClaims :=
      { Audience := "", ExpiresAt := 300, Id := "", IssuedAt := 0, Issuer := "",
        NotBefore := 0, Subject := "" } }

/-- An authority that signs `exportClaims` only; their token is `tok`. -/
def exportServer : Server where
  Secret := [1, 2, 3]
  GetDownloadToken := fun cl =>
    if cl = exportClaims then ("tok", none) else ("", some (Error.ext 9))
  HandleDownloadToken := fun t now =>
    if t = "tok" then
      if now ≤ 300 * nsPerSecond then Except.ok exportClaims else Except.error (Error.ext 1)
    else Except.error (Error.ext 2)

/-- The handler of the running example. -/
def exportHandler : Handler := { downloadServer := exportServer }

/-- A display name that is not valid UTF-8: the byte 0xff, then `.csv`. -/
def rawName : GoString := 255 :: ascii ".csv"

/-- What a JSON encoder makes of `rawName`: U+FFFD, in UTF-8 the bytes
EF BF BD, stands for the invalid byte. -/
def replacedName : GoString := [239, 191, 189] ++ ascii ".csv"

/-- The claims of the running example with the display name `rawName`. -/
def rawClaims : downloadTokenClaims := { exportClaims with DownloadFileName := rawName }

/-- An authority that signs `rawClaims` only and whose token codec, like the
JSON encoding of a JWT, replaces a byte that is not valid UTF-8 by U+FFFD:
verification hands the display name back as `replacedName`. -/
def codecServer : Server where
  Secret := [1, 2, 3]
  GetDownloadToken := fun cl =>
    if cl = rawClaims then ("tok", none) else ("", some (Error.ext 9))
  HandleDownloadToken := fun t now =>
    if t = "tok" then
      if now ≤ 300 * nsPerSecond then
        Except.ok { rawClaims with DownloadFileName := replacedName }
      else Except.error (Error.ext 1)
    else Except.error (Error.ext 2)

/-- A handler over the authority `codecServer`. -/
def codecHandler : Handler := { downloadServer := codecServer }

/-- An environment whose temp-file allocator settles on `/tmp/export1`. -/
def exportEnv : Env := { tempName := fun _ => Except.ok "/tmp/export1" }

/-- A world without files. -/
def emptyWorld : World :=
  { dir := fun _ => none, data := fun _ => [], fds := fun _ => none, nextFd := 3, nextIno := 1 }

/-- A world with one file at `/tmp/export1`, with the given answers to open
and unlink, holding two bytes. -/
def oneFileWorld (openErr removeErr : Option Errno) : World :=
  { dir := fun p =>
      if p = "/tmp/export1" then some { ino := 1, openErr := openErr, removeErr := removeErr }
      else none,
    data := fun i => if i = 1 then [8, 9] else [],
    fds := fun _ => none,
    nextFd := 3,
    nextIno := 2 }

/-- The handle `NewFileWriter` returns in `emptyWorld` under `exportEnv`, for a
handler over the authority `srv`. -/
def tempWriter (srv : Server) : FileWriter :=
  { WriteCloser := { dst := { fd := 3, name := "/tmp/export1" }, key := srv.Secret,
                     plain := [], finalized := false },
    downloadServer := srv,
    filePath := "/tmp/export1" }

/-- A request carrying the query parameter `token=tok`. -/
def tokRequest : Context :=
  { query := fun k => if k = "token" then "tok" else "",
    header := fun _ => none,
    body := [],
    Errors := [] }

/-! ## Basic facts -/

theorem upd_same {α β : Type} [DecidableEq α] (f : α → β) (a : α) (b : β) :
    upd f a b a = b := by
  simp [upd]

theorem upd_other {α β : Type} [DecidableEq α] (f : α → β) (a x : α) (b : β) (h : x ≠ a) :
    upd f a b x = f x := by
  simp [upd, h]

/-- Writing `none` where there was `none` changes nothing. -/
theorem upd_none_of_none {α β : Type} [DecidableEq α] (f : α → Option β) (a : α)
    (h : f a = none) : upd f a none = f := by
  funext x
  by_cases hx : x = a
  · subst hx; simp [upd, h]
  · simp [upd, hx]

/-- Undoing a fresh insertion. -/
theorem upd_upd_none {α β : Type} [DecidableEq α] (f : α → Option β) (a : α) (b : Option β)
    (h : f a = none) : upd (upd f a b) a none = f := by
  funext x
  by_cases hx : x = a
  · subst hx; simp [upd, h]
  · simp [upd, hx]

/-- What `os.Open` does on an entry that can be opened. -/
theorem os_Open_ok (w : World) (name : Path) (d : Dirent) (hd : w.dir name = some d)
    (ho : d.openErr = none) :
    os.Open w name =
      ({ w with fds := upd w.fds w.nextFd (some d.ino), nextFd := w.nextFd + 1 },
        Except.ok { fd := w.nextFd, name := name }) := by
  simp [os.Open, hd, ho]

/-- The handler on an accepted token whose file opens, in one equation. -/
theorem HandleDownloadRequest_opened (ci : Cipher) (s : Handler) (now : Int) (w : World)
    (c : Context) (claims : downloadTokenClaims) (d : Dirent)
    (hv : s.downloadServer.HandleDownloadToken (c.Query "token") now = Except.ok claims)
    (hd : w.dir claims.TempFileName = some d) (ho : d.openErr = none) :
    s.HandleDownloadRequest ci now w c =
      ((os.Remove { w with fds := upd (upd w.fds w.nextFd (some d.ino)) w.nextFd none,
                           nextFd := w.nextFd + 1 } claims.TempFileName).1,
        match (ci.Decrypt s.downloadServer.Secret (w.data d.ino)).2 with
        | some err =>
          (((c.HeaderSet "Content-type" (ascii "application/octet-stream")).HeaderSet
            "Content-Disposition" (contentDisposition claims.DownloadFileName)).Write
              (ci.Decrypt s.downloadServer.Secret (w.data d.ino)).1).Error
                (RecordedError.plain err)
        | none =>
          ((c.HeaderSet "Content-type" (ascii "application/octet-stream")).HeaderSet
            "Content-Disposition" (contentDisposition claims.DownloadFileName)).Write
              (ci.Decrypt s.downloadServer.Secret (w.data d.ino)).1) := by
  simp [Handler.HandleDownloadRequest, hv, os_Open_ok w _ d hd ho, File.contents, File.Close,
    upd_same]

/-! ## The read path -/

/-- C4: when the token authority rejects the token, `HandleDownloadRequest`
records a `rest.ErrBadRequest` error and touches nothing: the world after the
call (name space, contents, descriptor table) is the world before it, the
response header and body are untouched, and what the request ends with does
not depend on the world at all, so nothing was read either. -/
theorem HandleDownloadRequest_rejected (ci : Cipher) (s : Handler) (now : Int) (w : World)
    (c : Context) (err : Error)
    (hv : s.downloadServer.HandleDownloadToken (c.Query "token") now = Except.error err) :
    (s.HandleDownloadRequest ci now w c).1 = w ∧
    (s.HandleDownloadRequest ci now w c).2.Errors =
      c.Errors ++ [RecordedError.badRequest err "Invalid download request"] ∧
    (RecordedError.badRequest err "Invalid download request").IsInvalidRequest = true ∧
    (s.HandleDownloadRequest ci now w c).2.body = c.body ∧
    (s.HandleDownloadRequest ci now w c).2.header = c.header ∧
    ∀ w2 : World, (s.HandleDownloadRequest ci now w2 c).2 = (s.HandleDownloadRequest ci now w c).2 := by
  simp [Handler.HandleDownloadRequest, hv, Context.Error, RecordedError.IsInvalidRequest]

/-- The token `tok` presented after second 300 has expired: it is rejected
although its file still exists, and the file stays, unread. -/
theorem HandleDownloadRequest_rejected_witness :
    (exportHandler.HandleDownloadRequest shiftCipher (301 * nsPerSecond) (oneFileWorld none none)
        tokRequest).1 = oneFileWorld none none ∧
    (exportHandler.HandleDownloadRequest shiftCipher (301 * nsPerSecond) (oneFileWorld none none)
        tokRequest).2.Errors =
      tokRequest.Errors ++ [RecordedError.badRequest (Error.ext 1) "Invalid download request"] :=
  let h := HandleDownloadRequest_rejected shiftCipher exportHandler (301 * nsPerSecond)
    (oneFileWorld none none) tokRequest (Error.ext 1) (by rfl)
  ⟨h.1, h.2.1⟩

/-- C5: for an accepted token whose file fails to open, the recorded error is
a `rest.ErrBadRequest` exactly when the open failed because the path does not
exist (`os.IsNotExist`, which is the case exactly when the name space has no
entry for the path); for every other failure the error is recorded as it came,
an internal error and no bad request. Either way no body is written, no header
set and the world is unchanged, so no file is removed. -/
theorem HandleDownloadRequest_open_failed (ci : Cipher) (s : Handler) (now : Int)
    (w w1 : World) (c : Context) (claims : downloadTokenClaims) (err : Error)
    (hv : s.downloadServer.HandleDownloadToken (c.Query "token") now = Except.ok claims)
    (hopen : os.Open w claims.TempFileName = (w1, Except.error err)) :
    ∃ e : RecordedError,
      (s.HandleDownloadRequest ci now w c).2.Errors = c.Errors ++ [e] ∧
      (e.IsInvalidRequest = true ↔ os.IsNotExist err = true) ∧
      (os.IsNotExist err = true ↔ w.dir claims.TempFileName = none) ∧
      (os.IsNotExist err = true →
        e = RecordedError.badRequest err "Download file not found. Please retry.") ∧
      (os.IsNotExist err = false →
        e = RecordedError.plain err ∧ e.IsInternalError = true ∧ e.IsInvalidRequest = false) ∧
      (s.HandleDownloadRequest ci now w c).2.body = c.body ∧
      (s.HandleDownloadRequest ci now w c).2.header = c.header ∧
      (s.HandleDownloadRequest ci now w c).1 = w := by
  have hw : w1 = w ∧ (os.IsNotExist err = true ↔ w.dir claims.TempFileName = none) := by
    cases hdir : w.dir claims.TempFileName with
    | none =>
      simp only [os.Open, hdir, Prod.mk.injEq, Except.error.injEq] at hopen
      obtain ⟨h1, h2⟩ := hopen
      subst h1 h2
      simp [os.IsNotExist]
    | some d =>
      cases hoe : d.openErr with
      | none => simp [os.Open, hdir, hoe] at hopen
      | some e0 =>
        simp only [os.Open, hdir, hoe, Prod.mk.injEq, Except.error.injEq] at hopen
        obtain ⟨h1, h2⟩ := hopen
        subst h1 h2
        simp [os.IsNotExist]
  obtain ⟨hw1, hiff⟩ := hw
  subst hw1
  by_cases hne : os.IsNotExist err = true
  · refine ⟨RecordedError.badRequest err "Download file not found. Please retry.", ?_⟩
    simp [Handler.HandleDownloadRequest, hv, hopen, hne, Context.Error,
      RecordedError.IsInvalidRequest, hiff.mp hne]
  · refine ⟨RecordedError.plain err, ?_⟩
    have hne2 : os.IsNotExist err = false := by simpa using hne
    have hdir : ¬ w1.dir claims.TempFileName = none := fun h => hne (hiff.mpr h)
    simp [Handler.HandleDownloadRequest, hv, hopen, hne2, Context.Error,
      RecordedError.IsInvalidRequest, RecordedError.IsInternalError, hdir]

/-- The token is good and the file exists but may not be read: the permission
error is recorded as it came. -/
theorem HandleDownloadRequest_open_failed_witness :
    ∃ e : RecordedError,
      (exportHandler.HandleDownloadRequest shiftCipher 0 (oneFileWorld (some Errno.EACCES) none)
        tokRequest).2.Errors = tokRequest.Errors ++ [e] ∧
      (e.IsInvalidRequest = true ↔ os.IsNotExist (Error.sys Errno.EACCES) = true) :=
  let ⟨e, h1, h2, _⟩ := HandleDownloadRequest_open_failed shiftCipher exportHandler 0
    (oneFileWorld (some Errno.EACCES) none) (oneFileWorld (some Errno.EACCES) none) tokRequest
    exportClaims (Error.sys Errno.EACCES) rfl rfl
  ⟨e, h1, h2⟩

/-- C8: for an accepted token whose file opens, a failing `sio.Decrypt` makes
the handler record the cipher's error as it came (an internal error, not a
`rest.ErrBadRequest`) after the bytes `Decrypt` had written, and nothing is
written after them; a succeeding `Decrypt` records no error. -/
theorem HandleDownloadRequest_decrypt (ci : Cipher) (s : Handler) (now : Int) (w : World)
    (c : Context) (claims : downloadTokenClaims) (d : Dirent)
    (hv : s.downloadServer.HandleDownloadToken (c.Query "token") now = Except.ok claims)
    (hd : w.dir claims.TempFileName = some d) (ho : d.openErr = none) :
    (s.HandleDownloadRequest ci now w c).2.body =
      c.body ++ (ci.Decrypt s.downloadServer.Secret (w.data d.ino)).1 ∧
    (∀ err, (ci.Decrypt s.downloadServer.Secret (w.data d.ino)).2 = some err →
      (s.HandleDownloadRequest ci now w c).2.Errors = c.Errors ++ [RecordedError.plain err] ∧
      (RecordedError.plain err).IsInternalError = true ∧
      (RecordedError.plain err).IsInvalidRequest = false ∧
      ∀ e ∈ (s.HandleDownloadRequest ci now w c).2.Errors, e ∉ c.Errors →
        e.IsInvalidRequest = false) ∧
    ((ci.Decrypt s.downloadServer.Secret (w.data d.ino)).2 = none →
      (s.HandleDownloadRequest ci now w c).2.Errors = c.Errors) := by
  rw [HandleDownloadRequest_opened ci s now w c claims d hv hd ho]
  cases hdec : (ci.Decrypt s.downloadServer.Secret (w.data d.ino)).2 with
  | none => simp [Context.Write, Context.HeaderSet]
  | some e0 =>
    simp only [Context.Write, Context.HeaderSet, Context.Error, Option.some.injEq,
      RecordedError.IsInternalError, RecordedError.IsInvalidRequest, true_and,
      forall_eq', List.mem_append, List.mem_singleton, Bool.not_false, reduceCtorEq,
      false_implies, and_true]
    intro e he hne
    rcases he with he | he
    · exact absurd he hne
    · subst he; rfl

/-- A stream found tampered after its first byte: that byte is in the body,
the cipher's error is recorded. -/
theorem HandleDownloadRequest_decrypt_witness :
    (exportHandler.HandleDownloadRequest tamperedCipher 0 (oneFileWorld none none)
        tokRequest).2.body = [8] ∧
    (exportHandler.HandleDownloadRequest tamperedCipher 0 (oneFileWorld none none)
        tokRequest).2.Errors = [RecordedError.plain (Error.ext 3)] :=
  let h := HandleDownloadRequest_decrypt tamperedCipher exportHandler 0 (oneFileWorld none none)
    tokRequest exportClaims { ino := 1, openErr := none, removeErr := none } rfl rfl rfl
  ⟨h.1, (h.2.1 (Error.ext 3) rfl).1⟩

/-- The key the handler writes as `Content-type` is stored as `Content-Type`. -/
theorem canonical_contentType : CanonicalMIMEHeaderKey "Content-type" = "Content-Type" := by
  decide

/-- The key `Content-Disposition` is canonical already. -/
theorem canonical_contentDisposition :
    CanonicalMIMEHeaderKey "Content-Disposition" = "Content-Disposition" := by
  decide

/-- The authority of the running example hands back the claims it signed. -/
theorem exportServer_returns_signed (now : Int) (cl cl2 : downloadTokenClaims) (tok : String)
    (hsign : exportServer.GetDownloadToken cl = (tok, none))
    (hv : exportServer.HandleDownloadToken tok now = Except.ok cl2) : cl2 = cl := by
  by_cases hc : cl = exportClaims
  · simp only [exportServer, hc, if_true, Prod.mk.injEq, and_true] at hsign
    subst hsign
    by_cases hn : now ≤ 300 * nsPerSecond
    · simp only [exportServer, if_true, hn, Except.ok.injEq] at hv
      rw [hc, ← hv]
    · simp [exportServer, hn] at hv
  · simp [exportServer, hc] at hsign

/-- The authority of the running example accepts, until second 300, the
tokens it signed. -/
theorem exportServer_accepts (now : Int) (hnow : now ≤ 300 * nsPerSecond)
    (cl : downloadTokenClaims) (tok : String)
    (hsign : exportServer.GetDownloadToken cl = (tok, none)) :
    exportServer.HandleDownloadToken tok now = Except.ok cl := by
  by_cases hc : cl = exportClaims
  · simp only [exportServer, hc, if_true, Prod.mk.injEq, and_true] at hsign
    subst hsign
    simp [exportServer, hnow, hc]
  · simp [exportServer, hc] at hsign

/-- C10, as stated, fails in its last part: a handle from `NewFileWriter`, the
display name `rawName` given to `GetDownloadToken`, the token redeemed with
success (payload served, no error), and the header carries `replacedName`,
not `rawName`, because the authority handed the name back changed. -/
theorem HandleDownloadRequest_header_counterexample :
    codecHandler.NewFileWriter exportEnv shiftCipher emptyWorld "export"
      = (created emptyWorld "/tmp/export1", some (tempWriter codecServer), none) ∧
    (tempWriter codecServer).GetDownloadToken rawName (300 * nsPerSecond) 0
      = (tokRequest.Query "token", none) ∧
    (codecHandler.HandleDownloadRequest shiftCipher 0
      (FileWriter.produce shiftCipher (created emptyWorld "/tmp/export1")
        (tempWriter codecServer) [[1, 2], [3]] true).1 tokRequest).2.Errors = [] ∧
    (codecHandler.HandleDownloadRequest shiftCipher 0
      (FileWriter.produce shiftCipher (created emptyWorld "/tmp/export1")
        (tempWriter codecServer) [[1, 2], [3]] true).1 tokRequest).2.body = [1, 2, 3] ∧
    (codecHandler.HandleDownloadRequest shiftCipher 0
      (FileWriter.produce shiftCipher (created emptyWorld "/tmp/export1")
        (tempWriter codecServer) [[1, 2], [3]] true).1 tokRequest).2.header "Content-Disposition"
      = some (ascii "attachment; filename=\"" ++ replacedName ++ ascii "\"") ∧
    (codecHandler.HandleDownloadRequest shiftCipher 0
      (FileWriter.produce shiftCipher (created emptyWorld "/tmp/export1")
        (tempWriter codecServer) [[1, 2], [3]] true).1 tokRequest).2.header "Content-Disposition"
      ≠ some (ascii "attachment; filename=\"" ++ rawName ++ ascii "\"") := by
  refine ⟨by rfl, by rfl, by rfl, by rfl, by rfl, ?_⟩
  intro h
  have h2 : (codecHandler.HandleDownloadRequest shiftCipher 0
      (FileWriter.produce shiftCipher (created emptyWorld "/tmp/export1")
        (tempWriter codecServer) [[1, 2], [3]] true).1 tokRequest).2.header "Content-Disposition"
      = some (ascii "attachment; filename=\"" ++ replacedName ++ ascii "\"") := by rfl
  rw [h2] at h
  exact absurd h (by decide)

/-- C10 (amended): for an accepted token whose file opens, the response header
has `Content-Type: application/octet-stream` (the handler writes the key as
`Content-type`, the header stores it in canonical form) and
`Content-Disposition` set to exactly `attachment; filename="` followed by the
bytes of the display name of the claims, verbatim, followed by `"`. When the
token was returned by `GetDownloadToken` for the display name `n` and the
authority hands back the claims it signed, the header carries `n`. -/
theorem HandleDownloadRequest_header (ci : Cipher) (s : Handler) (now : Int) (w : World)
    (c : Context) (claims : downloadTokenClaims) (d : Dirent)
    (hv : s.downloadServer.HandleDownloadToken (c.Query "token") now = Except.ok claims)
    (hd : w.dir claims.TempFileName = some d) (ho : d.openErr = none) :
    (s.HandleDownloadRequest ci now w c).2.header "Content-Type"
      = some (ascii "application/octet-stream") ∧
    (s.HandleDownloadRequest ci now w c).2.header "Content-Disposition"
      = some (ascii "attachment; filename=\"" ++ claims.DownloadFileName ++ ascii "\"") ∧
    ∀ (fw : FileWriter) (n : GoString) (expireIn issuedAt : Int),
      fw.downloadServer = s.downloadServer →
      fw.GetDownloadToken n expireIn issuedAt = (c.Query "token", none) →
      (∀ (cl cl2 : downloadTokenClaims) (tok : String),
        s.downloadServer.GetDownloadToken cl = (tok, none) →
        s.downloadServer.HandleDownloadToken tok now = Except.ok cl2 → cl2 = cl) →
      (s.HandleDownloadRequest ci now w c).2.header "Content-Disposition"
        = some (ascii "attachment; filename=\"" ++ n ++ ascii "\"") := by
  have hkey : ("Content-Type" : String) ≠ "Content-Disposition" := by decide
  have hdisp : (s.HandleDownloadRequest ci now w c).2.header "Content-Disposition"
      = some (ascii "attachment; filename=\"" ++ claims.DownloadFileName ++ ascii "\"") := by
    rw [HandleDownloadRequest_opened ci s now w c claims d hv hd ho]
    cases (ci.Decrypt s.downloadServer.Secret (w.data d.ino)).2 <;>
      simp [Context.Write, Context.HeaderSet, Context.Error, upd, contentDisposition,
        canonical_contentDisposition]
  refine ⟨?_, hdisp, ?_⟩
  · rw [HandleDownloadRequest_opened ci s now w c claims d hv hd ho]
    cases (ci.Decrypt s.downloadServer.Secret (w.data d.ino)).2 <;>
      simp [Context.Write, Context.HeaderSet, Context.Error, upd, hkey, canonical_contentType,
        canonical_contentDisposition]
  · intro fw n expireIn issuedAt hds htok hsigned
    have hsign : s.downloadServer.GetDownloadToken (fw.claimsFor n expireIn issuedAt)
        = (c.Query "token", none) := by
      rw [← hds]; exact htok
    have hcl : claims = fw.claimsFor n expireIn issuedAt := hsigned _ _ _ hsign hv
    rw [hdisp, hcl]
    rfl

/-- The running example: the handle of `NewFileWriter` signs a token for the
display name `export.csv`, and the download is offered under that name. -/
theorem HandleDownloadRequest_header_witness :
    (exportHandler.HandleDownloadRequest shiftCipher 0 (oneFileWorld none none)
        tokRequest).2.header "Content-Type" = some (ascii "application/octet-stream") ∧
    (exportHandler.HandleDownloadRequest shiftCipher 0 (oneFileWorld none none)
        tokRequest).2.header "Content-Disposition"
      = some (ascii "attachment; filename=\"" ++ ascii "export.csv" ++ ascii "\"") :=
  let h := HandleDownloadRequest_header shiftCipher exportHandler 0 (oneFileWorld none none)
    tokRequest exportClaims { ino := 1, openErr := none, removeErr := none } (by rfl) (by rfl)
    (by rfl)
  ⟨h.1, h.2.2 (tempWriter exportServer) (ascii "export.csv") (300 * nsPerSecond) 0 (by rfl)
    (by rfl) (fun cl cl2 tok h1 h2 => exportServer_returns_signed 0 cl cl2 tok h1 h2)⟩

/-- What `os.Remove` leaves of the name space. -/
theorem os_Remove_dir (w : World) (name : Path) :
    (os.Remove w name).1.dir =
      match w.dir name with
      | none => w.dir
      | some d => if d.removeErr = none then upd w.dir name none else w.dir := by
  unfold os.Remove
  cases hdir : w.dir name with
  | none => rfl
  | some d => cases hr : d.removeErr <;> simp [hr]

/-- `os.Remove` touches the name space only. -/
theorem os_Remove_rest (w : World) (name : Path) :
    (os.Remove w name).1.fds = w.fds ∧ (os.Remove w name).1.data = w.data ∧
    (os.Remove w name).1.nextFd = w.nextFd ∧ (os.Remove w name).1.nextIno = w.nextIno := by
  unfold os.Remove
  cases hdir : w.dir name with
  | none => simp
  | some d => cases hr : d.removeErr <;> simp [hr]

/-- The handler unlinks the file it served when the entry can be unlinked. -/
theorem HandleDownloadRequest_unlinks (ci : Cipher) (s : Handler) (now : Int) (w : World)
    (c : Context) (claims : downloadTokenClaims) (d : Dirent)
    (hv : s.downloadServer.HandleDownloadToken (c.Query "token") now = Except.ok claims)
    (hd : w.dir claims.TempFileName = some d) (ho : d.openErr = none)
    (hr : d.removeErr = none) :
    (s.HandleDownloadRequest ci now w c).1.dir claims.TempFileName = none := by
  rw [HandleDownloadRequest_opened ci s now w c claims d hv hd ho]
  simp [os_Remove_dir, hd, hr, upd]

/-- C1, as stated, fails: the token is accepted, `os.Open` opens the file, the
handler returns, and the path named in the claims still exists, because the
entry cannot be unlinked and the handler discards the error of `os.Remove`. -/
theorem HandleDownloadRequest_cleanup_counterexample :
    exportHandler.downloadServer.HandleDownloadToken (tokRequest.Query "token") 0
      = Except.ok exportClaims ∧
    (os.Open (oneFileWorld none (some Errno.EACCES)) exportClaims.TempFileName).2
      = Except.ok { fd := 3, name := "/tmp/export1" } ∧
    (exportHandler.HandleDownloadRequest shiftCipher 0 (oneFileWorld none (some Errno.EACCES))
        tokRequest).1.dir exportClaims.TempFileName
      = some { ino := 1, openErr := none, removeErr := some Errno.EACCES } := by
  refine ⟨rfl, rfl, rfl⟩

/-- C1 (amended): for an accepted token whose file `os.Open` opens, whatever
`sio.Decrypt` does, when `HandleDownloadRequest` returns the descriptor it
opened is closed and `os.Remove` has been applied to the path of the claims:
the path no longer exists when the entry can be unlinked, every other name is
as before, and when the unlink fails the name space is unchanged. -/
theorem HandleDownloadRequest_cleanup (ci : Cipher) (s : Handler) (now : Int) (w : World)
    (c : Context) (claims : downloadTokenClaims) (d : Dirent)
    (hv : s.downloadServer.HandleDownloadToken (c.Query "token") now = Except.ok claims)
    (hd : w.dir claims.TempFileName = some d) (ho : d.openErr = none) :
    (os.Open w claims.TempFileName).2 = Except.ok { fd := w.nextFd, name := claims.TempFileName } ∧
    (s.HandleDownloadRequest ci now w c).1.fds w.nextFd = none ∧
    (∀ fd, fd ≠ w.nextFd → (s.HandleDownloadRequest ci now w c).1.fds fd = w.fds fd) ∧
    (d.removeErr = none → (s.HandleDownloadRequest ci now w c).1.dir claims.TempFileName = none) ∧
    (∀ q, q ≠ claims.TempFileName → (s.HandleDownloadRequest ci now w c).1.dir q = w.dir q) ∧
    (d.removeErr ≠ none → (s.HandleDownloadRequest ci now w c).1.dir = w.dir) := by
  rw [HandleDownloadRequest_opened ci s now w c claims d hv hd ho, os_Open_ok w _ d hd ho]
  simp only [os_Remove_dir, (os_Remove_rest _ _).1, hd, true_and]
  refine ⟨by simp [upd], ?_, ?_, ?_, ?_⟩
  · intro fd hfd
    simp [upd, hfd]
  · intro hr
    simp [hr, upd]
  · intro q hq
    by_cases hr : d.removeErr = none <;> simp [hr, upd, hq]
  · intro hr
    simp [hr]

/-- The running example with a file that can be unlinked: after the download
the descriptor is closed and the path is gone. -/
theorem HandleDownloadRequest_cleanup_witness :
    (exportHandler.HandleDownloadRequest shiftCipher 0 (oneFileWorld none none)
        tokRequest).1.fds 3 = none ∧
    (exportHandler.HandleDownloadRequest shiftCipher 0 (oneFileWorld none none)
        tokRequest).1.dir "/tmp/export1" = none :=
  let h := HandleDownloadRequest_cleanup shiftCipher exportHandler 0 (oneFileWorld none none)
    tokRequest exportClaims { ino := 1, openErr := none, removeErr := none } rfl rfl rfl
  ⟨h.2.1, h.2.2.2.1 rfl⟩

/-- X1: the deferred cleanup runs also when `sio.Decrypt` fails. For an
accepted token whose file opens and can be unlinked, a failing `Decrypt` has
its error recorded and the file is removed all the same, although it was not
served with success; the doc comment of the handler speaks of removal after a
successful serve. -/
theorem HandleDownloadRequest_removes_after_failed_decrypt (ci : Cipher) (s : Handler)
    (now : Int) (w : World) (c : Context) (claims : downloadTokenClaims) (d : Dirent)
    (err : Error)
    (hv : s.downloadServer.HandleDownloadToken (c.Query "token") now = Except.ok claims)
    (hd : w.dir claims.TempFileName = some d) (ho : d.openErr = none)
    (hr : d.removeErr = none)
    (hdec : (ci.Decrypt s.downloadServer.Secret (w.data d.ino)).2 = some err) :
    (s.HandleDownloadRequest ci now w c).2.Errors = c.Errors ++ [RecordedError.plain err] ∧
    (s.HandleDownloadRequest ci now w c).1.dir claims.TempFileName = none := by
  refine ⟨?_, HandleDownloadRequest_unlinks ci s now w c claims d hv hd ho hr⟩
  rw [HandleDownloadRequest_opened ci s now w c claims d hv hd ho, hdec]
  simp [Context.Write, Context.HeaderSet, Context.Error]

/-- A stream found tampered: the error is recorded and `/tmp/export1` is gone. -/
theorem HandleDownloadRequest_removes_after_failed_decrypt_witness :
    (exportHandler.HandleDownloadRequest tamperedCipher 0 (oneFileWorld none none)
        tokRequest).2.Errors = tokRequest.Errors ++ [RecordedError.plain (Error.ext 3)] ∧
    (exportHandler.HandleDownloadRequest tamperedCipher 0 (oneFileWorld none none)
        tokRequest).1.dir exportClaims.TempFileName = none :=
  HandleDownloadRequest_removes_after_failed_decrypt tamperedCipher exportHandler 0
    (oneFileWorld none none) tokRequest exportClaims
    { ino := 1, openErr := none, removeErr := none } (Error.ext 3) (by rfl) (by rfl) (by rfl)
    (by rfl) (by rfl)

/-- C3, as stated, fails: the token is accepted but the file may not be read.
Both calls record the permission error as it came; the second call does not
record a `rest.ErrBadRequest`. It fails a second way when the file can be read
but not unlinked: the second call serves the content again and records no
error. -/
theorem HandleDownloadRequest_twice_counterexample :
    ((exportHandler.HandleDownloadRequest shiftCipher 0
      (exportHandler.HandleDownloadRequest shiftCipher 0 (oneFileWorld (some Errno.EACCES) none)
        tokRequest).1 tokRequest).2.Errors = [RecordedError.plain (Error.sys Errno.EACCES)] ∧
      (RecordedError.plain (Error.sys Errno.EACCES)).IsInvalidRequest = false) ∧
    ((exportHandler.HandleDownloadRequest shiftCipher 0
      (exportHandler.HandleDownloadRequest shiftCipher 0 (oneFileWorld none (some Errno.EACCES))
        tokRequest).1 tokRequest).2.Errors = [] ∧
      (exportHandler.HandleDownloadRequest shiftCipher 0
      (exportHandler.HandleDownloadRequest shiftCipher 0 (oneFileWorld none (some Errno.EACCES))
        tokRequest).1 tokRequest).2.body = [7, 8]) := by
  refine ⟨⟨rfl, rfl⟩, ⟨rfl, rfl⟩⟩

/-- C3 (amended): `HandleDownloadRequest` runs twice in sequence on the same
token. If the authority rejects the token at the second call, that call
records `rest.ErrBadRequest` for an invalid download request. If the authority
accepts the token at both calls with the same claims and the file of the
claims is absent or can be opened and unlinked, the second call records
`rest.ErrBadRequest` for a file not found. In both cases the second call
records nothing else, writes no body, sets no header and leaves the world as
the first call left it. -/
theorem HandleDownloadRequest_twice (ci : Cipher) (s : Handler) (now1 now2 : Int) (w : World)
    (c1 c2 : Context) (hq : c2.Query "token" = c1.Query "token") :
    (∀ err, s.downloadServer.HandleDownloadToken (c1.Query "token") now2 = Except.error err →
      (s.HandleDownloadRequest ci now2 (s.HandleDownloadRequest ci now1 w c1).1 c2) =
        ((s.HandleDownloadRequest ci now1 w c1).1,
          c2.Error (RecordedError.badRequest err "Invalid download request")) ∧
      (RecordedError.badRequest err "Invalid download request").IsInvalidRequest = true) ∧
    (∀ claims,
      s.downloadServer.HandleDownloadToken (c1.Query "token") now1 = Except.ok claims →
      s.downloadServer.HandleDownloadToken (c1.Query "token") now2 = Except.ok claims →
      (w.dir claims.TempFileName = none ∨
        ∃ d, w.dir claims.TempFileName = some d ∧ d.openErr = none ∧ d.removeErr = none) →
      (s.HandleDownloadRequest ci now2 (s.HandleDownloadRequest ci now1 w c1).1 c2) =
        ((s.HandleDownloadRequest ci now1 w c1).1,
          c2.Error (RecordedError.badRequest Error.notExist
            "Download file not found. Please retry.")) ∧
      (RecordedError.badRequest Error.notExist
        "Download file not found. Please retry.").IsInvalidRequest = true ∧
      (s.HandleDownloadRequest ci now2 (s.HandleDownloadRequest ci now1 w c1).1 c2).2.body
        = c2.body) := by
  refine ⟨?_, ?_⟩
  · intro err hv2
    have hv2b : s.downloadServer.HandleDownloadToken (c2.Query "token") now2
        = Except.error err := by
      rw [hq]; exact hv2
    generalize (s.HandleDownloadRequest ci now1 w c1).1 = wA
    simp [Handler.HandleDownloadRequest, hv2b, RecordedError.IsInvalidRequest]
  · intro claims hv1 hv2 hfile
    have hgone : (s.HandleDownloadRequest ci now1 w c1).1.dir claims.TempFileName = none := by
      rcases hfile with hnone | ⟨d, hd, ho, hr⟩
      · simp [Handler.HandleDownloadRequest, hv1, os.Open, hnone, os.IsNotExist]
      · exact HandleDownloadRequest_unlinks ci s now1 w c1 claims d hv1 hd ho hr
    have hv2b : s.downloadServer.HandleDownloadToken (c2.Query "token") now2
        = Except.ok claims := by
      rw [hq]; exact hv2
    generalize (s.HandleDownloadRequest ci now1 w c1).1 = wA at hgone
    simp [Handler.HandleDownloadRequest, hv2b, os.Open, hgone, os.IsNotExist, Context.Error,
      RecordedError.IsInvalidRequest]

/-- The running example: the first call serves and removes the file, the
second finds nothing. -/
theorem HandleDownloadRequest_twice_witness :
    (exportHandler.HandleDownloadRequest shiftCipher 0
      (exportHandler.HandleDownloadRequest shiftCipher 0 (oneFileWorld none none)
        tokRequest).1 tokRequest).2 =
      tokRequest.Error
        (RecordedError.badRequest Error.notExist "Download file not found. Please retry.") :=
  congrArg Prod.snd
    ((HandleDownloadRequest_twice shiftCipher exportHandler 0 0 (oneFileWorld none none)
      tokRequest tokRequest rfl).2 exportClaims (by rfl) (by rfl)
      (Or.inr ⟨{ ino := 1, openErr := none, removeErr := none }, rfl, rfl, rfl⟩)).1

/-! ## The write path -/

/-- A successful `NewFileWriter`, spelled out. -/
theorem NewFileWriter_ok (env : Env) (ci : Cipher) (s : Handler) (w w1 : World)
    (pattern : String) (fw : FileWriter)
    (hnew : s.NewFileWriter env ci w pattern = (w1, some fw, none)) :
    ∃ name : Path,
      env.tempName pattern = Except.ok name ∧ w.dir name = none ∧
      ci.configErr s.downloadServer.Secret = none ∧
      w1 = created w name ∧
      fw = { WriteCloser := { dst := { fd := w.nextFd, name := name },
                              key := s.downloadServer.Secret, plain := [], finalized := false },
             downloadServer := s.downloadServer,
             filePath := name } := by
  unfold Handler.NewFileWriter ioutil.TempFile at hnew
  cases ht : env.tempName pattern with
  | error e => simp [ht] at hnew
  | ok name =>
    cases hdir : w.dir name with
    | some d0 => simp [ht, hdir] at hnew
    | none =>
      cases hc : ci.configErr s.downloadServer.Secret with
      | some e => simp [ht, hdir, sio.EncryptWriter, hc] at hnew
      | none =>
        simp only [ht, hdir, sio.EncryptWriter, hc, File.Name, Prod.mk.injEq, Option.some.injEq,
          and_true] at hnew
        exact ⟨name, rfl, hdir, rfl, hnew.1.symm, hnew.2.symm⟩

/-- C6: for a handle `fw` returned by `NewFileWriter`, a display name `n` and
a time to live `expireIn`, `GetDownloadToken` returns exactly what the token
authority returns for the claims whose `TempFileName` is the name of the temp
file that `ioutil.TempFile` created in this call of `NewFileWriter` (absent
before, present after), whose `DownloadFileName` is `n` and whose `ExpiresAt`
is the Unix time, in whole seconds, of the current time plus `expireIn`. -/
theorem GetDownloadToken_claims (env : Env) (ci : Cipher) (s : Handler) (w w1 : World)
    (pattern : String) (fw : FileWriter)
    (hnew : s.NewFileWriter env ci w pattern = (w1, some fw, none))
    (n : GoString) (expireIn now : Int) :
    ∃ file : File,
      ioutil.TempFile env w "" pattern = (w1, Except.ok file) ∧
      w.dir file.Name = none ∧
      w1.dir file.Name = some { ino := w.nextIno, openErr := none, removeErr := none } ∧
      fw.filePath = file.Name ∧
      fw.GetDownloadToken n expireIn now =
        s.downloadServer.GetDownloadToken
          { TempFileName := file.Name,
            DownloadFileName := n,
            toStandardClaims :=
              { Audience := "", ExpiresAt := (now + expireIn) / 1000000000, Id := "",
                IssuedAt := 0, Issuer := "", NotBefore := 0, Subject := "" } } := by
  obtain ⟨name, ht, hdir, _, hw1, hfw⟩ := NewFileWriter_ok env ci s w w1 pattern fw hnew
  subst hw1 hfw
  refine ⟨{ fd := w.nextFd, name := name }, ?_, hdir, ?_, rfl, ?_⟩
  · simp [ioutil.TempFile, ht, hdir, created]
  · simp [created, File.Name, upd]
  · simp [FileWriter.GetDownloadToken, FileWriter.claimsFor, File.Name, Unix, nsPerSecond]

/-- The running example: a handle for `/tmp/export1`, display name
`export.csv`, five minutes from time zero. -/
theorem GetDownloadToken_claims_witness :
    ∃ file : File,
      ioutil.TempFile exportEnv emptyWorld "" "export" = (created emptyWorld "/tmp/export1",
        Except.ok file) ∧
      file.Name = "/tmp/export1" :=
  let ⟨file, h1, _, _, h4, _⟩ := GetDownloadToken_claims exportEnv shiftCipher exportHandler
    emptyWorld (created emptyWorld "/tmp/export1") "export"
    { WriteCloser := { dst := { fd := 3, name := "/tmp/export1" }, key := [1, 2, 3],
                       plain := [], finalized := false },
      downloadServer := exportServer, filePath := "/tmp/export1" }
    rfl (ascii "export.csv") (300 * nsPerSecond) 0
  ⟨file, h1, h4.symm⟩

/-- C7: `NewFileWriter` returns a handle and no error, or no handle and an
error. When it fails, the name space after the call is the name space before
it. When the temp file was created and `sio.EncryptWriter` then fails, that
error is returned, the descriptor of the created file is closed and its name
is gone again. -/
theorem NewFileWriter_result (env : Env) (ci : Cipher) (s : Handler) (w : World)
    (pattern : String) :
    (((s.NewFileWriter env ci w pattern).2.1.isSome = true ∧
        (s.NewFileWriter env ci w pattern).2.2 = none) ∨
      ((s.NewFileWriter env ci w pattern).2.1 = none ∧
        (s.NewFileWriter env ci w pattern).2.2.isSome = true)) ∧
    ((s.NewFileWriter env ci w pattern).2.2.isSome = true →
      (s.NewFileWriter env ci w pattern).1.dir = w.dir) ∧
    (∀ (w1 : World) (file : File) (err : Error),
      ioutil.TempFile env w "" pattern = (w1, Except.ok file) →
      sio.EncryptWriter ci file s.downloadServer.Secret = Except.error err →
      w1.dir file.Name ≠ none ∧
      (s.NewFileWriter env ci w pattern).2 = (none, some err) ∧
      (s.NewFileWriter env ci w pattern).1.fds file.fd = none ∧
      (s.NewFileWriter env ci w pattern).1.dir file.Name = none) := by
  unfold Handler.NewFileWriter ioutil.TempFile
  cases ht : env.tempName pattern with
  | error e => simp
  | ok name =>
    cases hdir : w.dir name with
    | some d0 => simp [hdir]
    | none =>
      cases hc : ci.configErr s.downloadServer.Secret with
      | none => simp [hdir, sio.EncryptWriter, hc]
      | some e =>
        simp only [hdir, sio.EncryptWriter, hc, File.Close, File.Name, upd_same, os_Remove_dir,
          (os_Remove_rest _ _).1]
        refine ⟨by simp, ?_, ?_⟩
        · intro _
          simp [upd_upd_none _ _ _ hdir]
        · intro w1 file err h1 h2
          simp only [Prod.mk.injEq, Except.ok.injEq] at h1
          obtain ⟨hw1, hfile⟩ := h1
          subst hw1 hfile
          simp only [Except.error.injEq] at h2
          subst h2
          simp [upd]

/-- A cipher that refuses its configuration: the temp file that was created
is gone again and its descriptor closed. -/
theorem NewFileWriter_result_witness :
    (exportHandler.NewFileWriter exportEnv refusingCipher emptyWorld "export").2
      = (none, some (Error.ext 7)) ∧
    (exportHandler.NewFileWriter exportEnv refusingCipher emptyWorld "export").1.fds 3 = none ∧
    (exportHandler.NewFileWriter exportEnv refusingCipher emptyWorld "export").1.dir
      "/tmp/export1" = none :=
  ((NewFileWriter_result exportEnv refusingCipher exportHandler emptyWorld "export").2.2
    (created emptyWorld "/tmp/export1") { fd := 3, name := "/tmp/export1" } (Error.ext 7)
    rfl rfl).2

/-- Writing back what is there changes nothing. -/
theorem upd_self {α β : Type} [DecidableEq α] (f : α → β) (a : α) (b : β) (h : f a = b) :
    upd f a b = f := by
  funext x
  by_cases hx : x = a
  · subst hx; simp [upd, h]
  · simp [upd, hx]

/-- The later of two updates at one point wins. -/
theorem upd_upd {α β : Type} [DecidableEq α] (f : α → β) (a : α) (b c : β) :
    upd (upd f a b) a c = upd f a c := by
  funext x
  by_cases hx : x = a <;> simp [upd, hx]

/-- The closed stream is what the writes emitted followed by the last package. -/
theorem cipherText_eq (ci : Cipher) (key : Key) (chunks : List (List Byte)) (acc : List Byte) :
    cipherText ci key acc chunks =
      emitted ci key acc chunks ++ ci.final key (acc ++ chunks.flatten) := by
  induction chunks generalizing acc with
  | nil => simp [cipherText, emitted]
  | cons p ps ih => simp [cipherText, emitted, ih, List.append_assoc]

/-- Writing chunks through a handle whose descriptor is open and whose stream
is not closed: every write succeeds, the ciphertext is appended to the inode
and nothing else changes. -/
theorem writeAll_spec (ci : Cipher) (chunks : List (List Byte)) (w : World) (fw : FileWriter)
    (i : Nat) (hfd : w.fds fw.WriteCloser.dst.fd = some i)
    (hopen : fw.WriteCloser.finalized = false) :
    fw.writeAll ci w chunks =
      ({ w with
          data := upd w.data i
                    (w.data i ++ emitted ci fw.WriteCloser.key fw.WriteCloser.plain chunks) },
        { fw with
          WriteCloser := { fw.WriteCloser with plain := fw.WriteCloser.plain ++ chunks.flatten } },
        none) := by
  induction chunks generalizing w fw with
  | nil => simp [FileWriter.writeAll, emitted, upd_self]
  | cons p ps ih =>
    have hstep : fw.Write ci w p =
        ({ w with
            data := upd w.data i (w.data i ++ ci.emit fw.WriteCloser.key fw.WriteCloser.plain p) },
          { fw with WriteCloser := { fw.WriteCloser with plain := fw.WriteCloser.plain ++ p } },
          none) := by
      simp [FileWriter.Write, EncWriter.Write, hopen, File.Write, hfd]
    rw [FileWriter.writeAll, hstep]
    simp only
    rw [ih]
    · simp [emitted, upd_upd, upd_same, List.append_assoc]
    · exact hfd
    · exact hopen

/-- The state a producer leaves behind: the temp file holds the emitted
ciphertext, followed by the last package when the stream was closed, and the
descriptor is open exactly when the stream was left open. -/
theorem produce_spec (ci : Cipher) (s : Handler) (w : World) (name : Path)
    (chunks : List (List Byte)) (close : Bool) :
    FileWriter.produce ci (created w name)
        { WriteCloser := { dst := { fd := w.nextFd, name := name },
                           key := s.downloadServer.Secret, plain := [], finalized := false },
          downloadServer := s.downloadServer, filePath := name } chunks close =
      ({ created w name with
          data := upd w.data w.nextIno
            (if close then cipherText ci s.downloadServer.Secret [] chunks
             else emitted ci s.downloadServer.Secret [] chunks),
          fds := if close then upd w.fds w.nextFd none
                 else upd w.fds w.nextFd (some w.nextIno) },
        { WriteCloser := { dst := { fd := w.nextFd, name := name },
                           key := s.downloadServer.Secret, plain := chunks.flatten,
                           finalized := close },
          downloadServer := s.downloadServer, filePath := name }) := by
  unfold FileWriter.produce
  rw [writeAll_spec ci chunks (created w name) _ w.nextIno (by simp [created, upd_same]) rfl]
  cases close
  · simp [created, upd_same, upd_upd]
  · simp [created, upd_same, upd_upd, FileWriter.Close, EncWriter.Close, File.Write, File.Close,
      cipherText_eq]

/-- C9: for a handle returned by `NewFileWriter`, whatever chunks were written
to it and whether the stream was closed or left open, after `Remove` no entry
exists at the storage path of the handle, although one existed before; every
other name has the entry it had, and the contents of every other inode are
what they were. -/
theorem Remove_leaves_no_file (env : Env) (ci : Cipher) (s : Handler) (w w1 : World)
    (pattern : String) (fw : FileWriter)
    (hnew : s.NewFileWriter env ci w pattern = (w1, some fw, none))
    (chunks : List (List Byte)) (close : Bool) :
    (fw.produce ci w1 chunks close).2.filePath = fw.filePath ∧
    (fw.produce ci w1 chunks close).1.dir fw.filePath
      = some { ino := w.nextIno, openErr := none, removeErr := none } ∧
    ((fw.produce ci w1 chunks close).2.Remove ci (fw.produce ci w1 chunks close).1).1.dir
      fw.filePath = none ∧
    (∀ q, q ≠ fw.filePath →
      ((fw.produce ci w1 chunks close).2.Remove ci (fw.produce ci w1 chunks close).1).1.dir q
        = (fw.produce ci w1 chunks close).1.dir q) ∧
    (∀ q, q ≠ fw.filePath →
      ((fw.produce ci w1 chunks close).2.Remove ci (fw.produce ci w1 chunks close).1).1.dir q
        = w.dir q) ∧
    (∀ i, i ≠ w.nextIno →
      ((fw.produce ci w1 chunks close).2.Remove ci (fw.produce ci w1 chunks close).1).1.data i
        = (fw.produce ci w1 chunks close).1.data i) := by
  obtain ⟨name, _, _, _, hw1, hfw⟩ := NewFileWriter_ok env ci s w w1 pattern fw hnew
  subst hw1 hfw
  rw [produce_spec ci s w name chunks close]
  cases close
  · simp only [FileWriter.Remove, FileWriter.Close, EncWriter.Close, File.Write, File.Close,
      created, upd_same, os_Remove_dir, (os_Remove_rest _ _).2.1]
    refine ⟨trivial, by simp, by simp [upd], ?_, ?_, ?_⟩
    · intro q hq; simp [upd, hq]
    · intro q hq; simp [upd, hq]
    · intro i hi; simp [upd, hi]
  · simp only [FileWriter.Remove, FileWriter.Close, EncWriter.Close, File.Write, File.Close,
      created, upd_same, os_Remove_dir, (os_Remove_rest _ _).2.1]
    refine ⟨trivial, by simp, by simp [upd], ?_, ?_, ?_⟩
    · intro q hq; simp [upd, hq]
    · intro q hq; simp [upd, hq]
    · intro i hi; simp [upd, hi]

/-- The running example: three bytes written in two chunks, the stream left
open, the handle abandoned: `/tmp/export1` is gone. -/
theorem Remove_leaves_no_file_witness :
    ((FileWriter.produce shiftCipher (created emptyWorld "/tmp/export1")
        { WriteCloser := { dst := { fd := 3, name := "/tmp/export1" }, key := [1, 2, 3],
                           plain := [], finalized := false },
          downloadServer := exportServer, filePath := "/tmp/export1" }
        [[1, 2], [3]] false).2.Remove shiftCipher
      (FileWriter.produce shiftCipher (created emptyWorld "/tmp/export1")
        { WriteCloser := { dst := { fd := 3, name := "/tmp/export1" }, key := [1, 2, 3],
                           plain := [], finalized := false },
          downloadServer := exportServer, filePath := "/tmp/export1" }
        [[1, 2], [3]] false).1).1.dir "/tmp/export1" = none :=
  (Remove_leaves_no_file exportEnv shiftCipher exportHandler emptyWorld
    (created emptyWorld "/tmp/export1") "export"
    { WriteCloser := { dst := { fd := 3, name := "/tmp/export1" }, key := [1, 2, 3],
                       plain := [], finalized := false },
      downloadServer := exportServer, filePath := "/tmp/export1" }
    rfl [[1, 2], [3]] false).2.2.1

/-- C2: a handle is obtained from `NewFileWriter`, the chunks of a payload are
written to it in order, the handle is closed, `GetDownloadToken` returns a
token, and `HandleDownloadRequest` of the same handler redeems it before the
expiry that `GetDownloadToken` set. Take as hypotheses that the authority
accepts an unexpired token it signed and hands back the claims it signed, and
that `sio.Decrypt` inverts what the encrypting writer produced under the same
key. Then the bytes written to the response body are exactly the payload, and
no error is recorded. -/
theorem download_roundtrip (env : Env) (ci : Cipher) (s : Handler) (w w1 : World)
    (pattern : String) (fw : FileWriter)
    (hnew : s.NewFileWriter env ci w pattern = (w1, some fw, none))
    (chunks : List (List Byte)) (n : GoString) (expireIn issuedAt now : Int) (c : Context)
    (htok : (fw.produce ci w1 chunks true).2.GetDownloadToken n expireIn issuedAt
      = (c.Query "token", none))
    (hexp : Unix now ≤ Unix (issuedAt + expireIn))
    (hauth : ∀ (cl : downloadTokenClaims) (tok : String),
      s.downloadServer.GetDownloadToken cl = (tok, none) → Unix now ≤ cl.ExpiresAt →
      s.downloadServer.HandleDownloadToken tok now = Except.ok cl)
    (hcipher : ci.Decrypt s.downloadServer.Secret
        (cipherText ci s.downloadServer.Secret [] chunks) = (chunks.flatten, none)) :
    (s.HandleDownloadRequest ci now (fw.produce ci w1 chunks true).1 c).2.body
      = c.body ++ chunks.flatten ∧
    (s.HandleDownloadRequest ci now (fw.produce ci w1 chunks true).1 c).2.Errors = c.Errors := by
  obtain ⟨name, _, _, _, hw1, hfw⟩ := NewFileWriter_ok env ci s w w1 pattern fw hnew
  subst hw1 hfw
  rw [produce_spec ci s w name chunks true] at htok ⊢
  have hv := hauth _ _ htok hexp
  have hd : ({ created w name with
        data := upd w.data w.nextIno
          (if true = true then cipherText ci s.downloadServer.Secret [] chunks
           else emitted ci s.downloadServer.Secret [] chunks),
        fds := if true = true then upd w.fds w.nextFd none
               else upd w.fds w.nextFd (some w.nextIno) } : World).dir
      (FileWriter.claimsFor
        { WriteCloser := { dst := { fd := w.nextFd, name := name },
                           key := s.downloadServer.Secret, plain := chunks.flatten,
                           finalized := true },
          downloadServer := s.downloadServer, filePath := name } n expireIn issuedAt).TempFileName
      = some { ino := w.nextIno, openErr := none, removeErr := none } := by
    simp [created, FileWriter.claimsFor, upd_same]
  rw [HandleDownloadRequest_opened ci s now _ c _ _ hv hd rfl]
  simp [upd_same, hcipher, Context.Write, Context.HeaderSet]

/-- The running example: three bytes go in through the shifting cipher, in two
chunks; the token for `export.csv`, valid for five minutes, is redeemed at
once; the download returns the same three bytes. -/
theorem download_roundtrip_witness :
    (exportHandler.HandleDownloadRequest shiftCipher 0
      (FileWriter.produce shiftCipher (created emptyWorld "/tmp/export1")
        (tempWriter exportServer) [[1, 2], [3]] true).1 tokRequest).2.body = [1, 2, 3] :=
  (download_roundtrip exportEnv shiftCipher exportHandler emptyWorld
    (created emptyWorld "/tmp/export1") "export" (tempWriter exportServer)
    (by rfl) [[1, 2], [3]] (ascii "export.csv") (300 * nsPerSecond) 0 0 tokRequest (by rfl)
    (by decide)
    (fun cl tok h1 _ => exportServer_accepts 0 (by decide) cl tok h1)
    (by rfl)).1

end fileswap
